import Mathlib

/-!
Shallow embedding of the EvoPy evolutionary-strategy engine
(`evopy/evopy.py`) and verification of its specification claims.

Scalars (genotype components, fitness values, times) are modelled as
rationals; `numpy` arrays become lists.  The collaborators that live
outside the embedded module (`Individual`, `ProgressReport`, the seeded
random source) are modelled from the spec where noted: the engine only
uses them through narrow contracts.
-/

namespace EvoPy

/-- Scalar type of the embedding: genotype components, fitness values and
times are rationals. -/
abbrev Val := ℚ

/-- Modelled from the spec: the `Strategy` enum (external module
`evopy.strategy`) has exactly three recognized values.  The extra
`UNRECOGNIZED` constructor stands for any other Python value passed in
the `strategy` slot, which the engine must reject. -/
inductive Strat where
  | SINGLE_VARIANCE
  | MULTIPLE_VARIANCE
  | FULL_VARIANCE
  | UNRECOGNIZED
deriving DecidableEq, Repr

/-- Modelled from the spec: an `Individual` (external module
`evopy.individual`) owns a genotype vector, its strategy state, an age
counter starting at 0 and an optional cached fitness. -/
structure Individual where
  genotype : List Val
  strat : Strat
  strategyParameters : List Val
  age : ℕ
  fitness : Option Val
deriving DecidableEq, Repr

/-- Modelled from the spec: `Individual.evaluate(fitness_function)` calls
the fitness function once on the genotype, caches the result and returns
it. -/
def Individual.evaluate (f : List Val → Val) (i : Individual) : Val × Individual :=
  let v := f i.genotype
  (v, { i with fitness := some v })

/-- Cached fitness of an individual; the engine only reads it after the
individual has been evaluated, so the fallback value is never relevant
on reachable states. -/
def Individual.fitnessVal (i : Individual) : Val :=
  i.fitness.getD 0

/-- Modelled from the spec: the seeded random source is an abstract
stream of standard deviates together with a cursor. -/
structure RNG where
  stream : ℕ → Val
  pos : ℕ

/-- Draw `n` raw standard deviates, advancing the cursor. -/
def RNG.draw (r : RNG) (n : ℕ) : List Val × RNG :=
  ((List.range n).map fun i => r.stream (r.pos + i), { r with pos := r.pos + n })

/-- Modelled from the spec: `random.randn(n)` draws `n` standard-normal
deviates. -/
def RNG.randn (r : RNG) (n : ℕ) : List Val × RNG :=
  r.draw n

/-- Modelled from the spec: `random.normal(loc, scale, size)` draws
`size` deviates from the normal distribution with mean `loc` and
standard deviation `scale`; each draw is `loc + scale * z` for a
standard deviate `z`. -/
def RNG.normal (loc scale : Val) (size : ℕ) (r : RNG) : List Val × RNG :=
  let (zs, r') := r.draw size
  (zs.map fun z => loc + scale * z, r')

/-- Engine configuration: the keyword arguments of `EvoPy.__init__`.
The fields irrelevant to engine control flow (`fitness_function`,
`random_seed`, `reporter`, `forces_config`) are passed separately or
dropped. -/
structure Config where
  individualLength : ℕ
  warmStart : Option (List (List Val))
  generations : ℕ
  populationSize : ℕ
  numChildren : ℕ
  mean : Val
  std : Val
  maximize : Bool
  strat : Strat
  targetFitnessValue : Option Val
  targetTolerance : Val
  maxRunTime : Option Val
  maxEvaluations : Option ℕ
  bounds : Option (Val × Val)
  maxAge : ℕ
  mutationRate : Val

/-- Errors the Python engine can raise: the `ValueError` of
`_init_population` for an unrecognized strategy, and the `IndexError`
of indexing `[0]` into an empty population. -/
inductive EngineError where
  | strategyError
  | indexError
deriving DecidableEq, Repr

/-- Embedding of `EvoPy._age_population`: keep the individuals whose age
is strictly below `max_age`, then increment the age of each kept
individual by one. -/
def agePopulation (maxAge : ℕ) (population : List Individual) : List Individual :=
  (population.filter fun i => i.age < maxAge).map fun i => { i with age := i.age + 1 }

/-- Embedding of `np.clip` on one component: clamp into `[lo, hi]`. -/
def clipVal (lo hi x : Val) : Val :=
  min (max x lo) hi

/-- Number of strategy parameters drawn by `_init_population` for each
recognized strategy; `none` for the `else` branch that raises
`ValueError`. -/
def strategyParamCount (cfg : Config) : Option ℕ :=
  match cfg.strat with
  | .SINGLE_VARIANCE => some 1
  | .MULTIPLE_VARIANCE => some cfg.individualLength
  | .FULL_VARIANCE => some ((cfg.individualLength + 1) * cfg.individualLength / 2)
  | .UNRECOGNIZED => none

/-- Embedding of the sampling loop of `_init_population` when no warm
start is given: `population_size` rows, each drawn by
`random.normal(loc=0, scale=std, size=individual_length)`.  The source
passes `loc=0` literally; the configured `mean` is not used. -/
def sampleRows (std : Val) (len : ℕ) : ℕ → RNG → List (List Val) × RNG
  | 0, rng => ([], rng)
  | n + 1, rng =>
    let (row, rng') := RNG.normal 0 std len rng
    let (rows, rng'') := sampleRows std len n rng'
    (row :: rows, rng'')

/-- Embedding of `EvoPy._init_population`: draw the shared strategy
parameters (or fail on an unrecognized strategy), take the warm-start
matrix or sample fresh rows, clip every component into the configured
bounds, and build one `Individual` per row with age 0 and no cached
fitness. -/
def initPopulation (cfg : Config) (rng : RNG) : Except EngineError (List Individual × RNG) :=
  match strategyParamCount cfg with
  | none => .error .strategyError
  | some k =>
    let (strategyParameters, rng1) := RNG.randn rng k
    let (populationParameters, rng2) :=
      match cfg.warmStart with
      | none => sampleRows cfg.std cfg.individualLength cfg.populationSize rng1
      | some ws => (ws, rng1)
    let clipped :=
      match cfg.bounds with
      | none => populationParameters
      | some (lo, hi) => populationParameters.map (List.map (clipVal lo hi))
    .ok (clipped.map fun p =>
      { genotype := p
        strat := cfg.strat
        strategyParameters := strategyParameters
        age := 0
        fitness := none }, rng2)

/-- Embedding of `EvoPy._check_early_stop`: time budget exceeded, or
best fitness within tolerance of the target, or evaluation budget
reached.  `elapsed` stands for `time.time() - start_time` at the moment
of the check. -/
def checkEarlyStop (cfg : Config) (elapsed : Val) (evaluations : ℕ) (best : Individual) : Bool :=
  (match cfg.maxRunTime with
   | none => false
   | some t => decide (elapsed > t))
  || (match cfg.targetFitnessValue with
      | none => false
      | some tv => decide (|best.fitnessVal - tv| < cfg.targetTolerance))
  || (match cfg.maxEvaluations with
      | none => false
      | some m => decide (evaluations ≥ m))

/-- Ordering used by `sorted(..., reverse=self.maximize, key=evaluate)`:
compare the evaluation keys, reversed when maximizing.  Python's sort is
stable, and a stable sort is determined by its ordering, so the
insertion sort used below has exactly the same result. -/
def fitnessLe (maximize : Bool) (f : List Val → Val) (a b : Individual) : Prop :=
  match maximize with
  | true => f b.genotype ≤ f a.genotype
  | false => f a.genotype ≤ f b.genotype

instance fitnessLeDec (maximize : Bool) (f : List Val → Val) :
    DecidableRel (fitnessLe maximize f) := fun a b =>
  match maximize with
  | true => inferInstanceAs (Decidable (f b.genotype ≤ f a.genotype))
  | false => inferInstanceAs (Decidable (f a.genotype ≤ f b.genotype))

instance fitnessLeTotal (maximize : Bool) (f : List Val → Val) :
    IsTotal Individual (fitnessLe maximize f) where
  total a b := by
    cases maximize <;> simp only [fitnessLe] <;> exact le_total _ _

instance fitnessLeTrans (maximize : Bool) (f : List Val → Val) :
    IsTrans Individual (fitnessLe maximize f) where
  trans a b c := by
    cases maximize
    · exact fun h h' => le_trans h h'
    · exact fun h h' => le_trans h' h

/-- Embedding of `sorted(pop, reverse=maximize, key=lambda i: i.evaluate(f))`:
the key function is called once per element, caching each fitness, and
the list is stably sorted by the key values. -/
def sortByFitness (maximize : Bool) (f : List Val → Val) (pop : List Individual) :
    List Individual :=
  (pop.map fun i => (Individual.evaluate f i).2).insertionSort (fitnessLe maximize f)

/-- One round of the children comprehension: each parent of the
population reproduces once, in population order; the tick argument
threads the abstract randomness consumed by `reproduce`. -/
def reproduceRound (reproduce : ℕ → Individual → Individual) (tick : ℕ) :
    List Individual → List Individual
  | [] => []
  | p :: ps => reproduce tick p :: reproduceRound reproduce (tick + 1) ps

/-- Embedding of
`[parent.reproduce() for _ in range(num_children) for parent in population]`:
`num_children` rounds over the (pre-aging) population. -/
def makeChildren (reproduce : ℕ → Individual → Individual) (numChildren : ℕ)
    (population : List Individual) (tick : ℕ) : List Individual :=
  match numChildren with
  | 0 => []
  | n + 1 =>
    reproduceRound reproduce tick population ++
      makeChildren reproduce n population (tick + population.length)

/-- Modelled from the spec: the `ProgressReport` record built at each
generation from `(generation, evaluations, best.genotype, best.fitness,
mean, std, elapsed, should_stop)`.  The population fitness standard
deviation involves a real square root with no exact rational
counterpart and no claim concerns it, so it is not carried. -/
structure ProgressReport where
  generation : ℕ
  evaluations : ℕ
  bestGenotype : List Val
  bestFitness : Option Val
  fitnessMean : Val
  elapsed : Val
  stop : Bool
deriving DecidableEq, Repr

/-- Mutable state of `EvoPy.run` across loop iterations, together with
two instrumentation fields: `fitnessCalls` counts the calls made to the
fitness function, and `reports` collects the report records in order
(the Python source builds and delivers them only when a reporter
callback is configured; they never feed back into engine state). -/
structure LoopState where
  population : List Individual
  best : Individual
  evaluations : ℕ
  tick : ℕ
  fitnessCalls : ℕ
  reports : List ProgressReport
deriving DecidableEq, Repr

/-- Size of the union of newly produced offspring and aged survivors
formed in one generation from population `pop`. -/
def unionSize (cfg : Config) (pop : List Individual) : ℕ :=
  cfg.numChildren * pop.length + (agePopulation cfg.maxAge pop).length

/-- Union of newly produced offspring and aged survivors formed in one
generation: `children + self._age_population(population)`. -/
def genUnion (cfg : Config) (reproduce : ℕ → Individual → Individual)
    (pop : List Individual) (tick : ℕ) : List Individual :=
  makeChildren reproduce cfg.numChildren pop tick ++ agePopulation cfg.maxAge pop

/-- State after the body of one generation of `EvoPy.run`, before
`best = population[0]` is read: the union is stably sorted by fitness
and truncated to the population size, the evaluation counter grows by
the union size, and so does the instrumented fitness-call counter
(`sorted` calls the `evaluate` key once per union element). -/
def stepState (cfg : Config) (f : List Val → Val)
    (reproduce : ℕ → Individual → Individual) (st : LoopState) : LoopState :=
  { st with
      population :=
        (sortByFitness cfg.maximize f (genUnion cfg reproduce st.population st.tick)).take
          cfg.populationSize
      evaluations := st.evaluations + (genUnion cfg reproduce st.population st.tick).length
      tick := st.tick + cfg.numChildren * st.population.length
      fitnessCalls := st.fitnessCalls + (genUnion cfg reproduce st.population st.tick).length }

/-- Embedding of one generation body of `EvoPy.run` up to
`best = population[0]`: run the body and take the head of the truncated
population as the new best.  Indexing `[0]` into an empty truncated
population raises `IndexError`; the error carries the state as updated
before the raise (`self.evaluations` is already incremented). -/
def generationStep (cfg : Config) (f : List Val → Val)
    (reproduce : ℕ → Individual → Individual) (st : LoopState) :
    Except (EngineError × LoopState) LoopState :=
  match (stepState cfg f reproduce st).population.head? with
  | none => .error (.indexError, stepState cfg f reproduce st)
  | some b => .ok { stepState cfg f reproduce st with best := b }

/-- Population fitness mean reported via `np.mean`: the fitness sum
divided by the population size (division by zero yielding 0 on the
empty population, unreachable at the call site).  Written through
`Rat.divInt`; `fitnessMeanOf_eq_div` states the equality with `/`. -/
def fitnessMeanOf (pop : List Individual) : Val :=
  Rat.divInt (pop.map Individual.fitnessVal).sum.num
    ((pop.map Individual.fitnessVal).sum.den * pop.length)

/-- Report record built at generation `gen` from post-selection state
`st`, mirroring the `ProgressReport(...)` construction in `run`. -/
def mkReport (gen : ℕ) (st : LoopState) (elapsed : Val) (stop : Bool) : ProgressReport :=
  { generation := gen
    evaluations := st.evaluations
    bestGenotype := st.best.genotype
    bestFitness := st.best.fitness
    fitnessMean := fitnessMeanOf st.population
    elapsed := elapsed
    stop := stop }

/-- Embedding of
`should_stop = self._check_early_stop(start_time, best) or generation == self.generations - 1`
evaluated after the body of generation `gen` produced state `st'`;
`elapsedAt gen` stands for the wall-clock `time.time() - start_time`
observed at generation `gen`. -/
def shouldStopAt (cfg : Config) (elapsedAt : ℕ → Val) (gen : ℕ) (st' : LoopState) : Bool :=
  checkEarlyStop cfg (elapsedAt gen) st'.evaluations st'.best
    || decide (gen = cfg.generations - 1)

/-- Record the generation-`gen` report on state `st'`, with the
terminal flag set to `should_stop`. -/
def pushReport (cfg : Config) (elapsedAt : ℕ → Val) (gen : ℕ) (st' : LoopState) : LoopState :=
  { st' with reports :=
      st'.reports ++ [mkReport gen st' (elapsedAt gen) (shouldStopAt cfg elapsedAt gen st')] }

/-- Embedding of `for generation in range(self.generations)` from
generation `gen` with `remaining` iterations left: run the body, decide
`should_stop`, record the report and either break or continue. -/
def runLoop (cfg : Config) (f : List Val → Val)
    (reproduce : ℕ → Individual → Individual) (elapsedAt : ℕ → Val) :
    ℕ → ℕ → LoopState → Except (EngineError × LoopState) LoopState
  | _, 0, st => .ok st
  | gen, r + 1, st =>
    match generationStep cfg f reproduce st with
    | .error e => .error e
    | .ok st' =>
      if shouldStopAt cfg elapsedAt gen st' then .ok (pushReport cfg elapsedAt gen st')
      else runLoop cfg f reproduce elapsedAt (gen + 1) r (pushReport cfg elapsedAt gen st')

/-- Outcome of a run: the returned value (or the propagated error),
the emitted reports and the final counters. -/
structure RunResult where
  result : Except EngineError (Option (List Val))
  reports : List ProgressReport
  evaluations : ℕ
  fitnessCalls : ℕ
deriving Repr

/-- Embedding of `EvoPy.run`: return `None` for a zero-length genotype;
otherwise initialize the population, evaluate it once to pick the
initial best (`sorted(population, ...)[0]`), run the generation loop
and return the best genotype. -/
def run (cfg : Config) (f : List Val → Val)
    (reproduce : ℕ → Individual → Individual) (elapsedAt : ℕ → Val) (rng : RNG) :
    RunResult :=
  if cfg.individualLength = 0 then
    { result := .ok none, reports := [], evaluations := 0, fitnessCalls := 0 }
  else
    match initPopulation cfg rng with
    | .error e => { result := .error e, reports := [], evaluations := 0, fitnessCalls := 0 }
    | .ok (population, _) =>
      match (sortByFitness cfg.maximize f population).head? with
      | none =>
        { result := .error .indexError, reports := [], evaluations := 0,
          fitnessCalls := population.length }
      | some best0 =>
        let st0 : LoopState :=
          { population := population, best := best0, evaluations := 0, tick := 0,
            fitnessCalls := population.length, reports := [] }
        match runLoop cfg f reproduce elapsedAt 0 cfg.generations st0 with
        | .error (e, st) =>
          { result := .error e, reports := st.reports, evaluations := st.evaluations,
            fitnessCalls := st.fitnessCalls }
        | .ok st =>
          { result := .ok (some st.best.genotype), reports := st.reports,
            evaluations := st.evaluations, fitnessCalls := st.fitnessCalls }

/-- State carried by a loop outcome, whether the iteration returned
normally or raised: the error value carries the state at the moment of
the raise. -/
def outState : Except (EngineError × LoopState) LoopState → LoopState
  | .ok st => st
  | .error (_, st) => st

/-- Pure population-and-tick transition of one generation: the
population after truncation selection together with the advanced
randomness tick, as computed by `generationStep` independently of the
counters. -/
def ptStep (cfg : Config) (f : List Val → Val)
    (reproduce : ℕ → Individual → Individual) (pt : List Individual × ℕ) :
    List Individual × ℕ :=
  ((sortByFitness cfg.maximize f (genUnion cfg reproduce pt.1 pt.2)).take cfg.populationSize,
   pt.2 + cfg.numChildren * pt.1.length)

/-- Population and tick at the start of generation `n` of the loop,
obtained by iterating the pure transition from the initial
population. -/
def ptAt (cfg : Config) (f : List Val → Val)
    (reproduce : ℕ → Individual → Individual) (pop0 : List Individual) (n : ℕ) :
    List Individual × ℕ :=
  (ptStep cfg f reproduce)^[n] (pop0, 0)

/-- Sum, over generations `0, ..., g - 1`, of the sizes of the
offspring-plus-aged-survivors unions evaluated in those generations. -/
def sumUnionSizes (cfg : Config) (f : List Val → Val)
    (reproduce : ℕ → Individual → Individual) (pop0 : List Individual) (g : ℕ) : ℕ :=
  ((List.range g).map fun i => unionSize cfg (ptAt cfg f reproduce pop0 i).1).sum

/-- Genotype matrix of the generation-0 population produced by
`_init_population` (empty on the error path). -/
def initGenotypes (cfg : Config) (rng : RNG) : List (List Val) :=
  match initPopulation cfg rng with
  | .ok (pop, _) => pop.map Individual.genotype
  | .error _ => []

/-- Deterministic all-zeros deviate stream used by the concrete runs
below. -/
def zeroRng : RNG :=
  { stream := fun _ => 0, pos := 0 }

/-- Configuration shared by the concrete minimizing runs below: one
genotype component, warm start at the origin, population size 1, one
child per parent, and the default `max_age = 0`. -/
def cxBaseCfg : Config :=
  { individualLength := 1
    warmStart := some [[0]]
    generations := 2
    populationSize := 1
    numChildren := 1
    mean := 0
    std := 1
    maximize := false
    strat := .SINGLE_VARIANCE
    targetFitnessValue := none
    targetTolerance := 1 / 100000
    maxRunTime := none
    maxEvaluations := none
    bounds := none
    maxAge := 0
    mutationRate := 1 }

/-- Fitness of the concrete runs: the first genotype component. -/
def cxF : List Val → Val := fun g => g.headD 0

/-- Reproduction used by the concrete counterexample run: the child's
genotype is the parent's first component plus one, so each successive
child is strictly worse for the minimizing fitness `cxF`. -/
def cxRep : ℕ → Individual → Individual := fun _ i =>
  { i with genotype := [i.genotype.headD 0 + 1], age := 0, fitness := none }

/-- Reproduction that copies the parent genotype (children neither
better nor worse). -/
def copyRep : ℕ → Individual → Individual := fun _ i =>
  { i with age := 0, fitness := none }

/-- Concrete individual at the origin used to build loop states
directly. -/
def cxInd : Individual :=
  { genotype := [0], strat := .SINGLE_VARIANCE, strategyParameters := [0], age := 0,
    fitness := some 0 }

/-- Loop state holding only `cxInd`, as at the start of a generation. -/
def cxSt : LoopState :=
  { population := [cxInd], best := cxInd, evaluations := 0, tick := 0, fitnessCalls := 1,
    reports := [] }

/-- Configuration of the early-stop scenario: target fitness 0 with
tolerance `1e-5`, squared-norm fitness, warm start at `[1/1000]` whose
fitness is `1e-6`. -/
def esCfg : Config :=
  { cxBaseCfg with generations := 5, warmStart := some [[1 / 1000]] }

/-- Squared Euclidean norm fitness of the early-stop scenario. -/
def esF : List Val → Val := fun g => (g.map fun x => x * x).sum

/-- Individual of the early-stop scenario, at genotype `[1/1000]`. -/
def esInd : Individual :=
  { genotype := [1 / 1000], strat := .SINGLE_VARIANCE, strategyParameters := [0], age := 0,
    fitness := some (1 / 1000000) }

/-- Loop state of the early-stop scenario at generation 0. -/
def esSt : LoopState :=
  { population := [esInd], best := esInd, evaluations := 0, tick := 0, fitnessCalls := 1,
    reports := [] }

/-- Early-stop scenario configuration with the target set. -/
def esCfgT : Config :=
  { esCfg with targetFitnessValue := some 0 }

/-- Generation-0 individual produced by `_init_population` on
`cxBaseCfg` and the all-zeros stream. -/
def initInd : Individual :=
  { genotype := [0], strat := .SINGLE_VARIANCE, strategyParameters := [0], age := 0,
    fitness := none }

/-- State of the all-zeros stream after the single `randn(1)` draw. -/
def zeroRng1 : RNG :=
  { stream := fun _ => 0, pos := 1 }

/-- Faithfulness of the reported mean: it is the fitness sum divided by
the population size. -/
theorem fitnessMeanOf_eq_div (pop : List Individual) :
    fitnessMeanOf pop = (pop.map Individual.fitnessVal).sum / (pop.length : Val) := by
  unfold fitnessMeanOf
  rw [Rat.divInt_eq_div]
  push_cast
  rw [← div_div, Rat.num_div_den]

theorem reproduceRound_length (reproduce : ℕ → Individual → Individual) (tick : ℕ)
    (l : List Individual) :
    (reproduceRound reproduce tick l).length = l.length := by
  induction l generalizing tick with
  | nil => rfl
  | cons p ps ih => simp [reproduceRound, ih]

theorem makeChildren_length (reproduce : ℕ → Individual → Individual) (n : ℕ)
    (pop : List Individual) (tick : ℕ) :
    (makeChildren reproduce n pop tick).length = n * pop.length := by
  induction n generalizing tick with
  | zero => simp [makeChildren]
  | succ n ih =>
    simp [makeChildren, reproduceRound_length, ih, Nat.succ_mul]
    omega

theorem genUnion_length (cfg : Config) (reproduce : ℕ → Individual → Individual)
    (pop : List Individual) (tick : ℕ) :
    (genUnion cfg reproduce pop tick).length = unionSize cfg pop := by
  simp [genUnion, unionSize, makeChildren_length]

theorem generationStep_ok (cfg : Config) (f : List Val → Val)
    (reproduce : ℕ → Individual → Individual) (st st' : LoopState)
    (h : generationStep cfg f reproduce st = .ok st') :
    st'.population = (ptStep cfg f reproduce (st.population, st.tick)).1 ∧
    st'.tick = (ptStep cfg f reproduce (st.population, st.tick)).2 ∧
    st'.evaluations = st.evaluations + unionSize cfg st.population ∧
    st'.fitnessCalls = st.fitnessCalls + unionSize cfg st.population ∧
    st'.reports = st.reports ∧
    st'.population.head? = some st'.best := by
  unfold generationStep at h
  split at h
  · exact absurd h (by simp)
  · rename_i b hb
    cases h
    refine ⟨rfl, rfl, ?_, ?_, rfl, ?_⟩
    · simp [stepState, genUnion_length]
    · simp [stepState, genUnion_length]
    · exact hb

theorem generationStep_error (cfg : Config) (f : List Val → Val)
    (reproduce : ℕ → Individual → Individual) (st : LoopState) (e : EngineError)
    (st'' : LoopState)
    (h : generationStep cfg f reproduce st = .error (e, st'')) :
    st''.evaluations = st.evaluations + unionSize cfg st.population ∧
    st''.fitnessCalls = st.fitnessCalls + unionSize cfg st.population ∧
    st''.reports = st.reports := by
  unfold generationStep at h
  split at h
  · cases h
    exact ⟨by simp [stepState, genUnion_length], by simp [stepState, genUnion_length], rfl⟩
  · exact absurd h (by simp)

theorem ptAt_succ (cfg : Config) (f : List Val → Val)
    (reproduce : ℕ → Individual → Individual) (pop0 : List Individual) (n : ℕ) :
    ptAt cfg f reproduce pop0 (n + 1) = ptStep cfg f reproduce (ptAt cfg f reproduce pop0 n) := by
  simp [ptAt, Function.iterate_succ_apply']

theorem sumUnionSizes_succ (cfg : Config) (f : List Val → Val)
    (reproduce : ℕ → Individual → Individual) (pop0 : List Individual) (g : ℕ) :
    sumUnionSizes cfg f reproduce pop0 (g + 1) =
      sumUnionSizes cfg f reproduce pop0 g + unionSize cfg (ptAt cfg f reproduce pop0 g).1 := by
  simp [sumUnionSizes, List.range_succ]

/-- Backbone invariant of the generation loop: starting the loop at
generation `gen` in a state whose population, tick and counters agree
with the pure iteration and whose accumulated reports record the summed
union sizes, the final state (also on an error exit) still has every
report recording the summed union sizes, and its fitness-call count
exceeds its evaluation counter by exactly the constant `n0`. -/
theorem runLoop_out_spec (cfg : Config) (f : List Val → Val)
    (reproduce : ℕ → Individual → Individual) (elapsedAt : ℕ → Val)
    (pop0 : List Individual) (n0 : ℕ) :
    ∀ (r gen : ℕ) (st : LoopState),
      st.population = (ptAt cfg f reproduce pop0 gen).1 →
      st.tick = (ptAt cfg f reproduce pop0 gen).2 →
      st.evaluations = sumUnionSizes cfg f reproduce pop0 gen →
      st.fitnessCalls = n0 + st.evaluations →
      (∀ rp ∈ st.reports,
        rp.evaluations = sumUnionSizes cfg f reproduce pop0 (rp.generation + 1)) →
      (∀ rp ∈ (outState (runLoop cfg f reproduce elapsedAt gen r st)).reports,
        rp.evaluations = sumUnionSizes cfg f reproduce pop0 (rp.generation + 1)) ∧
      (outState (runLoop cfg f reproduce elapsedAt gen r st)).fitnessCalls =
        n0 + (outState (runLoop cfg f reproduce elapsedAt gen r st)).evaluations := by
  intro r
  induction r with
  | zero =>
    intro gen st _ _ _ hc hr
    exact ⟨hr, hc⟩
  | succ r ih =>
    intro gen st hp ht he hc hr
    have hsum : st.evaluations + unionSize cfg st.population =
        sumUnionSizes cfg f reproduce pop0 (gen + 1) := by
      rw [he, hp, sumUnionSizes_succ]
    unfold runLoop
    cases hstep : generationStep cfg f reproduce st with
    | error epair =>
      obtain ⟨err, stE⟩ := epair
      obtain ⟨hE1, hE2, hE3⟩ := generationStep_error cfg f reproduce st err stE hstep
      simp only [outState]
      refine ⟨?_, ?_⟩
      · rw [hE3]; exact hr
      · rw [hE2, hE1, hc]; omega
    | ok st' =>
      obtain ⟨hP, hT, hEv, hFc, hRp, _⟩ := generationStep_ok cfg f reproduce st st' hstep
      have hrep' : ∀ rp ∈ (pushReport cfg elapsedAt gen st').reports,
          rp.evaluations = sumUnionSizes cfg f reproduce pop0 (rp.generation + 1) := by
        intro rp hmem
        simp only [pushReport, List.mem_append, List.mem_singleton] at hmem
        rcases hmem with hmem | hmem
        · exact hr rp (hRp ▸ hmem)
        · subst hmem
          simp only [mkReport]
          rw [hEv, hsum]
      have hpp : (st.population, st.tick) = ptAt cfg f reproduce pop0 gen := by
        rw [hp, ht]
      by_cases hstop : shouldStopAt cfg elapsedAt gen st' = true
      · simp only [hstop, if_true, outState]
        refine ⟨hrep', ?_⟩
        simp only [pushReport]
        rw [hFc, hEv, hc]
        omega
      · simp only [hstop, if_false, Bool.not_eq_true] at *
        rw [if_neg (by simp [hstop])]
        apply ih (gen + 1) (pushReport cfg elapsedAt gen st')
        · simp only [pushReport]
          rw [hP, ptAt_succ, hpp]
        · simp only [pushReport]
          rw [hT, ptAt_succ, hpp]
        · simp only [pushReport]
          rw [hEv, hsum]
        · simp only [pushReport]
          rw [hFc, hEv, hc]
          omega
        · exact hrep'

/-- Run-level consequence of the loop invariant: every emitted report
records the summed union sizes of the generations up to it, and the
final fitness-call count exceeds the final evaluation counter by
exactly the initial population size. -/
theorem run_out_spec (cfg : Config) (f : List Val → Val)
    (reproduce : ℕ → Individual → Individual) (elapsedAt : ℕ → Val) (rng : RNG)
    (pop0 : List Individual) (rng' : RNG)
    (hl : cfg.individualLength ≠ 0)
    (hi : initPopulation cfg rng = .ok (pop0, rng')) :
    (∀ rp ∈ (run cfg f reproduce elapsedAt rng).reports,
      rp.evaluations = sumUnionSizes cfg f reproduce pop0 (rp.generation + 1)) ∧
    (run cfg f reproduce elapsedAt rng).fitnessCalls =
      pop0.length + (run cfg f reproduce elapsedAt rng).evaluations := by
  unfold run
  rw [if_neg hl, hi]
  cases hh : (sortByFitness cfg.maximize f pop0).head? with
  | none =>
    simp only [hh]
    constructor
    · intro rp hmem
      simp at hmem
    · have hpe : pop0 = [] := by
        have := congrArg List.length ((List.head?_eq_none_iff).mp hh)
        simpa [sortByFitness, (List.perm_insertionSort _ _).length_eq] using this
      simp [hpe]
  | some b0 =>
    simp only [hh]
    have hmain := runLoop_out_spec cfg f reproduce elapsedAt pop0 pop0.length
      cfg.generations 0
      { population := pop0, best := b0, evaluations := 0, tick := 0,
        fitnessCalls := pop0.length, reports := [] }
      rfl rfl rfl (by simp) (by intro rp hmem; simp at hmem)
    cases hrl : runLoop cfg f reproduce elapsedAt 0 cfg.generations
        { population := pop0, best := b0, evaluations := 0, tick := 0,
          fitnessCalls := pop0.length, reports := [] } with
    | error epair =>
      obtain ⟨e, stE⟩ := epair
      rw [hrl] at hmain
      simp only [hrl]
      simpa [outState] using hmain
    | ok stF =>
      rw [hrl] at hmain
      simp only [hrl]
      simpa [outState] using hmain

/-- C5: in every generation of the loop the cumulative evaluation
counter increases by exactly the size of the union of newly produced
offspring and aged survivors, so every emitted report carries an
evaluation count equal to the sum of those union sizes over generations
`0..g` (the populations of generations `0..g` are given by the pure
iteration `ptAt`, and `sumUnionSizes ... (g + 1)` is the sum of
`unionSize` over `0..g`). -/
theorem evaluation_counter_sums_union_sizes (cfg : Config) (f : List Val → Val)
    (reproduce : ℕ → Individual → Individual) (elapsedAt : ℕ → Val) (rng : RNG)
    (pop0 : List Individual) (rng' : RNG)
    (hl : cfg.individualLength ≠ 0)
    (hi : initPopulation cfg rng = .ok (pop0, rng')) :
    (∀ st st', generationStep cfg f reproduce st = .ok st' →
      st'.evaluations = st.evaluations + unionSize cfg st.population) ∧
    (∀ rp ∈ (run cfg f reproduce elapsedAt rng).reports,
      rp.evaluations = sumUnionSizes cfg f reproduce pop0 (rp.generation + 1)) := by
  constructor
  · intro st st' h
    exact (generationStep_ok cfg f reproduce st st' h).2.2.1
  · exact (run_out_spec cfg f reproduce elapsedAt rng pop0 rng' hl hi).1

/-- Witness for the evaluation-counting theorem: the generation-0
report of a concrete two-generation run records 1 evaluation, the
summed union size of generation 0. -/
theorem evaluation_counter_sums_union_sizes_witness :
    cxBaseCfg.individualLength ≠ 0 ∧
    ({ generation := 0, evaluations := 1, bestGenotype := [1], bestFitness := some 1,
       fitnessMean := 1, elapsed := 0, stop := false } : ProgressReport).evaluations =
      sumUnionSizes cxBaseCfg cxF cxRep [initInd]
        (({ generation := 0, evaluations := 1, bestGenotype := [1], bestFitness := some 1,
            fitnessMean := 1, elapsed := 0, stop := false } : ProgressReport).generation + 1) :=
  ⟨by decide,
   (evaluation_counter_sums_union_sizes cxBaseCfg cxF cxRep (fun _ => 0) zeroRng [initInd]
       zeroRng1 (by decide) rfl).2 _ (by with_unfolding_all decide)⟩

/-- C10: the fitness evaluations of the generation-0 initial population
(one per initial candidate, performed by `sorted(population, ...)` just
before the loop) are never added to `self.evaluations`: over the whole
run the number of fitness-function calls exceeds the cumulative
evaluation counter, against which `max_evaluations` is compared, by
exactly the initial population size. -/
theorem initial_evaluations_uncounted (cfg : Config) (f : List Val → Val)
    (reproduce : ℕ → Individual → Individual) (elapsedAt : ℕ → Val) (rng : RNG)
    (pop0 : List Individual) (rng' : RNG)
    (hl : cfg.individualLength ≠ 0)
    (hi : initPopulation cfg rng = .ok (pop0, rng')) :
    (run cfg f reproduce elapsedAt rng).fitnessCalls =
      pop0.length + (run cfg f reproduce elapsedAt rng).evaluations :=
  (run_out_spec cfg f reproduce elapsedAt rng pop0 rng' hl hi).2

/-- Witness for the uncounted initial evaluations: the concrete
two-generation run makes 3 fitness calls but its final evaluation
counter is 2, the difference being the single initial candidate. -/
theorem initial_evaluations_uncounted_witness :
    (run cxBaseCfg cxF cxRep (fun _ => 0) zeroRng).fitnessCalls =
      ([initInd] : List Individual).length +
        (run cxBaseCfg cxF cxRep (fun _ => 0) zeroRng).evaluations :=
  initial_evaluations_uncounted cxBaseCfg cxF cxRep (fun _ => 0) zeroRng [initInd] zeroRng1
    (by decide) rfl

/-- C6: the aging step keeps exactly the candidates of the prior
generation whose age is strictly below the configured maximum age
(every survivor arises from such a candidate and every such candidate
survives), increments each kept candidate's age by exactly one, and
drops every other candidate (the survivor count equals the count of
candidates below the maximum age); with maximum age 0 every survivor is
dropped, without error. -/
theorem agePopulation_spec (m : ℕ) (pop : List Individual) :
    (∀ i ∈ agePopulation m pop,
      ∃ j ∈ pop, j.age < m ∧ i = { j with age := j.age + 1 }) ∧
    (∀ j ∈ pop, j.age < m → { j with age := j.age + 1 } ∈ agePopulation m pop) ∧
    (agePopulation m pop).length = (pop.filter fun j => j.age < m).length ∧
    agePopulation 0 pop = [] := by
  refine ⟨?_, ?_, ?_, ?_⟩
  · intro i hi
    simp only [agePopulation, List.mem_map, List.mem_filter] at hi
    obtain ⟨j, ⟨hj, hlt⟩, rfl⟩ := hi
    exact ⟨j, hj, by simpa using hlt, rfl⟩
  · intro j hj hlt
    simp only [agePopulation, List.mem_map, List.mem_filter]
    exact ⟨j, ⟨hj, by simpa using hlt⟩, rfl⟩
  · simp [agePopulation]
  · simp [agePopulation]

/-- Witness for the aging theorem: with maximum age 1, the age-0
individual `cxInd` survives with its age incremented to 1. -/
theorem agePopulation_spec_witness :
    cxInd ∈ [cxInd] ∧ cxInd.age < 1 ∧
    ({ cxInd with age := cxInd.age + 1 } : Individual) ∈ agePopulation 1 [cxInd] :=
  ⟨by decide, by decide, (agePopulation_spec 1 [cxInd]).2.1 cxInd (by decide) (by decide)⟩

/-- C7: with `individual_length = 0`, `run` returns the explicit
no-result value (`None`) immediately: no report is emitted, the
evaluation counter stays 0 and the fitness function is never called,
and population initialization is skipped. -/
theorem run_zero_length (cfg : Config) (f : List Val → Val)
    (reproduce : ℕ → Individual → Individual) (elapsedAt : ℕ → Val) (rng : RNG)
    (h : cfg.individualLength = 0) :
    run cfg f reproduce elapsedAt rng =
      { result := .ok none, reports := [], evaluations := 0, fitnessCalls := 0 } := by
  unfold run
  rw [if_pos h]

/-- Witness for the zero-length theorem on a concrete configuration. -/
theorem run_zero_length_witness :
    ({ cxBaseCfg with individualLength := 0 } : Config).individualLength = 0 ∧
    run { cxBaseCfg with individualLength := 0 } cxF cxRep (fun _ => 0) zeroRng =
      { result := .ok none, reports := [], evaluations := 0, fitnessCalls := 0 } :=
  ⟨rfl, run_zero_length { cxBaseCfg with individualLength := 0 } cxF cxRep (fun _ => 0)
    zeroRng rfl⟩

/-- C8: a strategy value that is not one of the three recognized
granularities makes `_init_population` raise the configuration error,
and the run propagates it before any fitness evaluation occurs: the
instrumented fitness-call count of the failed run is 0, no report is
emitted and no evaluation is counted. -/
theorem unrecognized_strategy_fails_fast (cfg : Config) (f : List Val → Val)
    (reproduce : ℕ → Individual → Individual) (elapsedAt : ℕ → Val) (rng : RNG)
    (hs : cfg.strat = .UNRECOGNIZED) :
    initPopulation cfg rng = .error .strategyError ∧
    (cfg.individualLength ≠ 0 →
      run cfg f reproduce elapsedAt rng =
        { result := .error .strategyError, reports := [], evaluations := 0,
          fitnessCalls := 0 }) := by
  have hinit : initPopulation cfg rng = .error .strategyError := by
    unfold initPopulation strategyParamCount
    rw [hs]
  refine ⟨hinit, fun hl => ?_⟩
  unfold run
  rw [if_neg hl, hinit]

/-- Witness for the unrecognized-strategy theorem on a concrete
configuration. -/
theorem unrecognized_strategy_fails_fast_witness :
    ({ cxBaseCfg with strat := .UNRECOGNIZED } : Config).strat = .UNRECOGNIZED ∧
    ({ cxBaseCfg with strat := .UNRECOGNIZED } : Config).individualLength ≠ 0 ∧
    run { cxBaseCfg with strat := .UNRECOGNIZED } cxF cxRep (fun _ => 0) zeroRng =
      { result := .error .strategyError, reports := [], evaluations := 0,
        fitnessCalls := 0 } :=
  ⟨rfl, by decide,
   (unrecognized_strategy_fails_fast { cxBaseCfg with strat := .UNRECOGNIZED } cxF cxRep
       (fun _ => 0) zeroRng rfl).2 (by decide)⟩

/-- C2 (code bug): `_init_population` samples the initial genotypes
with `loc=0`, not the configured mean.  First conjunct: changing the
configured mean never changes the initialized population at all.
Remaining conjuncts: on a configuration with mean 5, std 1, genotype
length 1, population size 1 and the all-zeros deviate stream, the
sampled genotype matrix is `[[0]]`, although a draw from the documented
normal distribution with the standard deviate 0 would be
`mean + std * 0 = 5 ≠ 0`. -/
theorem init_population_ignores_configured_mean :
    (∀ (cfg : Config) (rng : RNG) (m : Val),
      initPopulation { cfg with mean := m } rng = initPopulation cfg rng) ∧
    initGenotypes { cxBaseCfg with warmStart := none, mean := 5 } zeroRng = [[0]] ∧
    ({ cxBaseCfg with warmStart := none, mean := 5 } : Config).mean +
        ({ cxBaseCfg with warmStart := none, mean := 5 } : Config).std * zeroRng.stream 1
      = 5 ∧
    (5 : Val) ≠ 0 := by
  refine ⟨?_, ?_, ?_, ?_⟩
  · intro cfg rng m
    cases cfg
    rfl
  · with_unfolding_all rfl
  · with_unfolding_all decide
  · decide

/-- C3 counterexample: with warm start `[[5]]` and bounds `(0, 1)`
configured, the generation-0 genotype matrix is the clamped `[[1]]`,
not the warm-start matrix `[[5]]`: `np.clip` is applied to the
warm-start matrix as well. -/
theorem warm_start_clipped_by_bounds_cx :
    ({ cxBaseCfg with warmStart := some [[5]], bounds := some (0, 1) } : Config).warmStart
      = some [[5]] ∧
    initGenotypes { cxBaseCfg with warmStart := some [[5]], bounds := some (0, 1) } zeroRng
      = [[1]] ∧
    ([[(1 : Val)]] ≠ [[5]]) := by
  refine ⟨rfl, by with_unfolding_all decide, by decide⟩

/-- C3 (amended): the warm-start genotype matrix is used verbatim
exactly when no box bounds are configured; when bounds `(lo, hi)` are
configured, the generation-0 genotypes are the warm-start components
clamped into `[lo, hi]`. -/
theorem warm_start_init (cfg : Config) (rng : RNG) (ws : List (List Val))
    (hw : cfg.warmStart = some ws) (hs : cfg.strat ≠ .UNRECOGNIZED) :
    initGenotypes cfg rng =
      match cfg.bounds with
      | none => ws
      | some (lo, hi) => ws.map (List.map (clipVal lo hi)) := by
  obtain ⟨k, hk⟩ : ∃ k, strategyParamCount cfg = some k := by
    cases hstrat : cfg.strat
    · exact ⟨1, by simp [strategyParamCount, hstrat]⟩
    · exact ⟨cfg.individualLength, by simp [strategyParamCount, hstrat]⟩
    · exact ⟨(cfg.individualLength + 1) * cfg.individualLength / 2,
        by simp [strategyParamCount, hstrat]⟩
    · exact absurd hstrat hs
  unfold initGenotypes initPopulation
  rw [hk, hw]
  cases hb : cfg.bounds with
  | none => simp [List.map_map, Function.comp_def]
  | some p =>
    obtain ⟨lo, hi⟩ := p
    simp [List.map_map, Function.comp_def]

/-- Witness for the warm-start theorem: with no bounds configured the
warm-start matrix `[[5]]` is the generation-0 genotype matrix
verbatim. -/
theorem warm_start_init_witness :
    ({ cxBaseCfg with warmStart := some [[5]] } : Config).warmStart = some [[5]] ∧
    ({ cxBaseCfg with warmStart := some [[5]] } : Config).strat ≠ .UNRECOGNIZED ∧
    initGenotypes { cxBaseCfg with warmStart := some [[5]] } zeroRng = [[5]] :=
  ⟨rfl, by decide,
   warm_start_init { cxBaseCfg with warmStart := some [[5]] } zeroRng [[5]] rfl (by decide)⟩

theorem fitnessLe_refl (m : Bool) (f : List Val → Val) (a : Individual) :
    fitnessLe m f a a := by
  cases m <;> exact le_refl _

theorem fitnessLe_congr_right (m : Bool) (f : List Val → Val) (a : Individual)
    {b c : Individual} (hbc : b.genotype = c.genotype) (h : fitnessLe m f a b) :
    fitnessLe m f a c := by
  cases m <;> simpa [fitnessLe, hbc] using h

theorem sorted_head_rel (m : Bool) (f : List Val → Val) (b : Individual)
    (l : List Individual) (hs : List.Sorted (fitnessLe m f) (b :: l)) :
    ∀ e ∈ b :: l, fitnessLe m f b e := by
  intro e he
  rcases List.mem_cons.mp he with rfl | he
  · exact fitnessLe_refl m f e
  · exact List.rel_of_sorted_cons hs e he

theorem sortByFitness_sorted (m : Bool) (f : List Val → Val) (pop : List Individual) :
    List.Sorted (fitnessLe m f) (sortByFitness m f pop) :=
  List.sorted_insertionSort (fitnessLe m f) _

theorem mem_sortByFitness_of_mem (m : Bool) (f : List Val → Val) {i : Individual}
    {pop : List Individual} (h : i ∈ pop) :
    (Individual.evaluate f i).2 ∈ sortByFitness m f pop := by
  unfold sortByFitness
  exact (List.perm_insertionSort (fitnessLe m f) _).mem_iff.mpr
    (List.mem_map_of_mem _ h)

/-- C9: after truncation selection (for any configured population size
`P ≥ 1` and generation count `G ≥ 1`), the population of every
generation is sorted by fitness in the configured direction
(`fitnessLe cfg.maximize f` orders by ascending fitness when minimizing
and by descending fitness when maximizing) and its size never exceeds
`P`. -/
theorem selection_sorted_and_bounded (cfg : Config) (f : List Val → Val)
    (reproduce : ℕ → Individual → Individual) (st st' : LoopState)
    (hP : 1 ≤ cfg.populationSize) (hG : 1 ≤ cfg.generations)
    (h : generationStep cfg f reproduce st = .ok st') :
    st'.population.length ≤ cfg.populationSize ∧
    List.Sorted (fitnessLe cfg.maximize f) st'.population := by
  obtain ⟨hPop, -⟩ := generationStep_ok cfg f reproduce st st' h
  constructor
  · rw [hPop]
    exact List.length_take_le _ _
  · rw [hPop]
    exact List.Pairwise.sublist (List.take_sublist _ _)
      (sortByFitness_sorted cfg.maximize f _)

/-- Witness for the selection theorem on one concrete generation
step. -/
theorem selection_sorted_and_bounded_witness :
    1 ≤ cxBaseCfg.populationSize ∧ 1 ≤ cxBaseCfg.generations ∧
    ((outState (generationStep cxBaseCfg cxF cxRep cxSt)).population.length ≤
        cxBaseCfg.populationSize ∧
      List.Sorted (fitnessLe cxBaseCfg.maximize cxF)
        (outState (generationStep cxBaseCfg cxF cxRep cxSt)).population) :=
  ⟨by decide, by decide,
   selection_sorted_and_bounded cxBaseCfg cxF cxRep cxSt _ (by decide) (by decide)
     (by with_unfolding_all rfl)⟩

/-- C1 counterexample: a concrete minimizing run (warm start `[[0]]`,
children strictly worse than their parents, the default `max_age = 0`)
whose reported best fitnesses are 1 at generation 0 and 2 at generation
1: the reported best fitness strictly increases, because aging drops
every survivor, including the previous best, before selection. -/
theorem best_fitness_not_monotone_cx :
    cxBaseCfg.maximize = false ∧
    (run cxBaseCfg cxF cxRep (fun _ => 0) zeroRng).reports.map ProgressReport.bestFitness
      = [some 1, some 2] ∧
    ¬ ((2 : Val) ≤ 1) := by
  refine ⟨rfl, by with_unfolding_all decide, by decide⟩

/-- C1 (amended): whenever the previous generation's best candidate
survives aging — its age is strictly below the configured maximum age —
truncation selection never replaces it by a strictly inferior
candidate: the new best is at least as good in the configured direction
(`fitnessLe cfg.maximize f st'.best st.best` reads
`f st'.best.genotype ≤ f st.best.genotype` when minimizing and `≥` when
maximizing, and these are exactly the reported best fitness values).
Without the aging proviso the claim fails, see
`best_fitness_not_monotone_cx`. -/
theorem best_monotone_of_best_survives (cfg : Config) (f : List Val → Val)
    (reproduce : ℕ → Individual → Individual) (st st' : LoopState)
    (hmem : st.best ∈ st.population)
    (hage : st.best.age < cfg.maxAge)
    (h : generationStep cfg f reproduce st = .ok st') :
    fitnessLe cfg.maximize f st'.best st.best := by
  obtain ⟨hPop, -, -, -, -, hHd⟩ := generationStep_ok cfg f reproduce st st' h
  have hbump : ({ st.best with age := st.best.age + 1 } : Individual) ∈
      genUnion cfg reproduce st.population st.tick := by
    apply List.mem_append_right
    exact (agePopulation_spec cfg.maxAge st.population).2.1 st.best hmem hage
  have hmemS :
      (Individual.evaluate f { st.best with age := st.best.age + 1 }).2 ∈
        sortByFitness cfg.maximize f (genUnion cfg reproduce st.population st.tick) :=
    mem_sortByFitness_of_mem cfg.maximize f hbump
  have hsorted : List.Sorted (fitnessLe cfg.maximize f)
      (sortByFitness cfg.maximize f (genUnion cfg reproduce st.population st.tick)) :=
    sortByFitness_sorted cfg.maximize f _
  rw [hPop] at hHd
  simp only [ptStep] at hHd
  obtain ⟨a, tl, hSc⟩ : ∃ a tl,
      sortByFitness cfg.maximize f (genUnion cfg reproduce st.population st.tick)
        = a :: tl := by
    cases hS0 : sortByFitness cfg.maximize f (genUnion cfg reproduce st.population st.tick)
      with
    | nil =>
      rw [hS0] at hHd
      simp at hHd
    | cons a tl => exact ⟨a, tl, rfl⟩
  rw [hSc] at hHd hmemS hsorted
  have ha : a = st'.best := by
    rcases hn : cfg.populationSize with _ | q
    · rw [hn] at hHd
      simp at hHd
    · rw [hn] at hHd
      simpa using hHd
  subst ha
  exact fitnessLe_congr_right cfg.maximize f _ rfl
    (sorted_head_rel cfg.maximize f _ tl hsorted
      ((Individual.evaluate f { st.best with age := st.best.age + 1 }).2) hmemS)

/-- Witness for the amended monotonicity theorem: with `max_age = 5`
the best candidate of `cxSt` survives aging and the new best is at
least as good. -/
theorem best_monotone_of_best_survives_witness :
    cxSt.best ∈ cxSt.population ∧
    cxSt.best.age < ({ cxBaseCfg with maxAge := 5 } : Config).maxAge ∧
    fitnessLe ({ cxBaseCfg with maxAge := 5 } : Config).maximize cxF
      (outState (generationStep { cxBaseCfg with maxAge := 5 } cxF cxRep cxSt)).best
      cxSt.best :=
  ⟨by decide, by decide,
   best_monotone_of_best_survives { cxBaseCfg with maxAge := 5 } cxF cxRep cxSt _
     (by decide) (by decide) (by with_unfolding_all rfl)⟩

/-- C4: at every generation the loop terminates exactly when
`should_stop` holds.  The early-stop check is equivalent to the
three-way disjunction: elapsed wall-clock time strictly exceeds
`max_run_time`, the best fitness is strictly within the tolerance of
the target value, or the evaluation counter has reached
`max_evaluations`; `should_stop` additionally holds, unconditionally,
at the final configured generation.  The emitted report's terminal flag
equals `should_stop`; the loop exits immediately after that report when
it is set and continues otherwise. -/
theorem early_stop_spec (cfg : Config) (f : List Val → Val)
    (reproduce : ℕ → Individual → Individual) (elapsedAt : ℕ → Val)
    (gen r : ℕ) (st st' : LoopState)
    (h : generationStep cfg f reproduce st = .ok st') :
    (checkEarlyStop cfg (elapsedAt gen) st'.evaluations st'.best = true ↔
      (∃ t, cfg.maxRunTime = some t ∧ t < elapsedAt gen) ∨
      (∃ tv, cfg.targetFitnessValue = some tv ∧
        |st'.best.fitnessVal - tv| < cfg.targetTolerance) ∨
      (∃ mx, cfg.maxEvaluations = some mx ∧ mx ≤ st'.evaluations)) ∧
    (shouldStopAt cfg elapsedAt gen st' =
      (checkEarlyStop cfg (elapsedAt gen) st'.evaluations st'.best
        || decide (gen = cfg.generations - 1))) ∧
    ((mkReport gen st' (elapsedAt gen) (shouldStopAt cfg elapsedAt gen st')).stop =
      shouldStopAt cfg elapsedAt gen st') ∧
    (shouldStopAt cfg elapsedAt gen st' = true →
      runLoop cfg f reproduce elapsedAt gen (r + 1) st =
        .ok (pushReport cfg elapsedAt gen st')) ∧
    (shouldStopAt cfg elapsedAt gen st' = false →
      runLoop cfg f reproduce elapsedAt gen (r + 1) st =
        runLoop cfg f reproduce elapsedAt (gen + 1) r (pushReport cfg elapsedAt gen st')) := by
  refine ⟨?_, rfl, rfl, ?_, ?_⟩
  · unfold checkEarlyStop
    cases hmr : cfg.maxRunTime <;> cases htv : cfg.targetFitnessValue <;>
      cases hme : cfg.maxEvaluations <;>
        simp [gt_iff_lt, or_assoc]
  · intro hstop
    conv_lhs => rw [runLoop]
    rw [h]
    simp [hstop]
  · intro hstop
    conv_lhs => rw [runLoop]
    rw [h]
    simp [hstop]

/-- Witness for the early-stop theorem: the spec's scenario with target
fitness 0, tolerance 1e-5 and squared-norm fitness; the candidate at
`[1/1000]` has fitness 1e-6, so generation 0 of the 5 configured
generations stops with the report's terminal flag set. -/
theorem early_stop_spec_witness :
    checkEarlyStop esCfgT 0 (outState (generationStep esCfgT esF copyRep esSt)).evaluations
        (outState (generationStep esCfgT esF copyRep esSt)).best = true ∧
    shouldStopAt esCfgT (fun _ => 0) 0 (outState (generationStep esCfgT esF copyRep esSt))
        = true ∧
    runLoop esCfgT esF copyRep (fun _ => 0) 0 5 esSt =
      .ok (pushReport esCfgT (fun _ => 0) 0
        (outState (generationStep esCfgT esF copyRep esSt))) ∧
    (mkReport 0 (outState (generationStep esCfgT esF copyRep esSt)) 0
        (shouldStopAt esCfgT (fun _ => 0) 0
          (outState (generationStep esCfgT esF copyRep esSt)))).stop = true := by
  have h := early_stop_spec esCfgT esF copyRep (fun _ => 0) 0 4 esSt
    (outState (generationStep esCfgT esF copyRep esSt)) (by with_unfolding_all rfl)
  have hstop : shouldStopAt esCfgT (fun _ => 0) 0
      (outState (generationStep esCfgT esF copyRep esSt)) = true := by
    with_unfolding_all decide
  exact ⟨by with_unfolding_all decide, hstop, h.2.2.2.1 hstop, h.2.2.1.trans hstop⟩

end EvoPy
